import Mathlib

/-!
Shallow embedding of the modal-editor core of `src/main.rs` (the `vii` editor):
the line store (`Row`, `EditorBuffer`), the editor state (`EditorConfig`), cursor
movement, character insertion/deletion, line split/join, the command interpreter,
scrolling, and the status-bar renderer.  Machine integers (`u16`, `usize`) are
modelled as `Nat`; every subtraction in the source is either guarded (so the
`Nat` truncation is never reached under the stated hypotheses) or explicitly
discussed where it can underflow.  File-system and terminal I/O are external
collaborators; the outcome of a file write is passed in as an `Except` value.
Rust `Vec` indexing panics out of bounds; here `List.getD`/`List.set` are used,
which agree with the source whenever the index is in bounds — the theorems carry
the bounds as hypotheses.
-/

namespace Vii

/-- The editing mode (`enum Mode` in the source). -/
inductive Mode
  | Normal
  | Insert
  | Command
deriving DecidableEq, Repr

namespace Row

/-- `Row::insert_char`: insert `c` at byte index `i` of the row content `s`;
if `i` is at or beyond the current length, push `c` at the end. -/
def insert_char (i : Nat) (c : Char) (s : List Char) : List Char :=
  if i ≥ s.length then s ++ [c]
  else s.take i ++ c :: s.drop i

/-- `Row::delete_char`: remove the character at index `i` when `i` is in
bounds, otherwise leave the row unchanged. -/
def delete_char (i : Nat) (s : List Char) : List Char :=
  if i < s.length then s.take i ++ s.drop (i + 1) else s

end Row

/-- `EditorBuffer`: the ordered sequence of row contents. -/
structure EditorBuffer where
  rows : List (List Char)
deriving DecidableEq, Repr

/-- `EditorConfig`: the whole editor state.  `cx`, `cy`, `screen_cols`,
`screen_rows` are `u16` and `row_offset` is `usize` in the source; all are
modelled as `Nat`. -/
structure EditorConfig where
  cx : Nat
  cy : Nat
  screen_cols : Nat
  screen_rows : Nat
  row_offset : Nat
  mode : Mode
  buffer : EditorBuffer
  command_buffer : List Char
  status_msg : List Char
  filename : Option (List Char)
deriving DecidableEq, Repr

/-- Rust `char::is_control`: the Unicode `Cc` category,
U+0000..U+001F together with U+007F..U+009F. -/
def isControlChar (c : Char) : Bool :=
  c.toNat < 0x20 || (0x7F ≤ c.toNat && c.toNat ≤ 0x9F)

namespace EditorConfig

/-- `EditorConfig::move_cursor`: `h`/`j`/`k`/`l` movement followed by the
unconditional clamp of `cx` to the current row length. -/
def move_cursor (key : Char) (e : EditorConfig) : EditorConfig :=
  let row_count := e.buffer.rows.length
  let e1 :=
    if key = 'h' then (if e.cx > 0 then { e with cx := e.cx - 1 } else e)
    else if key = 'j' then
      (if e.cy < row_count - 1 then { e with cy := e.cy + 1 } else e)
    else if key = 'k' then (if e.cy > 0 then { e with cy := e.cy - 1 } else e)
    else if key = 'l' then
      (if e.cx < (e.buffer.rows.getD e.cy []).length then { e with cx := e.cx + 1 } else e)
    else e
  let cur_row_len := (e1.buffer.rows.getD e1.cy []).length
  if e1.cx > cur_row_len then { e1 with cx := cur_row_len } else e1

/-- `EditorConfig::insert_char`: insert into the current row and advance `cx`. -/
def insert_char (c : Char) (e : EditorConfig) : EditorConfig :=
  { e with
    buffer := ⟨e.buffer.rows.set e.cy (Row.insert_char e.cx c (e.buffer.rows.getD e.cy []))⟩,
    cx := e.cx + 1 }

/-- `EditorConfig::delete_char`: backspace semantics.  At `(0,0)` a no-op; with
`cx > 0` delete the character left of the cursor; otherwise remove the current
row, append its content to the previous row and put the cursor at the join
point (the previous row's length before the append). -/
def delete_char (e : EditorConfig) : EditorConfig :=
  if e.cx = 0 ∧ e.cy = 0 then e
  else if e.cx > 0 then
    { e with
      buffer := ⟨e.buffer.rows.set e.cy (Row.delete_char (e.cx - 1) (e.buffer.rows.getD e.cy []))⟩,
      cx := e.cx - 1 }
  else
    let current := e.buffer.rows.getD e.cy []
    let rows1 := e.buffer.rows.eraseIdx e.cy
    let cy1 := e.cy - 1
    let prev := rows1.getD cy1 []
    { e with buffer := ⟨rows1.set cy1 (prev ++ current)⟩, cy := cy1, cx := prev.length }

/-- `EditorConfig::save`.  Creating and writing the file is external I/O; the
parameter `w` is the outcome the file-system collaborator returns for the write
(`Except.error msg` models a failed `File::create`/`write_all`, whose error the
`?` operator propagates out of `save`).  With no filename configured, the
source sets the status message and returns `Ok(())` without touching the
file system. -/
def save (w : Except (List Char) Unit) (e : EditorConfig) :
    EditorConfig × Except (List Char) Unit :=
  match e.filename with
  | none =>
    ({ e with status_msg := ("No file name! Use :w <filename> (TBD)").data }, Except.ok ())
  | some name =>
    match w with
    | Except.error msg => (e, Except.error msg)
    | Except.ok _ =>
      ({ e with status_msg := ("Saved to ").data ++ name }, Except.ok ())

/-- `EditorConfig::execute_command`: interpret the accumulated command buffer,
then return to Normal mode with a cleared buffer; the `Bool` is the
"continue running" signal. -/
def execute_command (w : Except (List Char) Unit) (e : EditorConfig) :
    EditorConfig × Bool :=
  let cmd := e.command_buffer
  let res :=
    if cmd = ("w").data then
      match save w e with
      | (e1, Except.ok _) => ({ e1 with status_msg := ("Saved to output.txt").data }, true)
      | (e1, Except.error msg) => ({ e1 with status_msg := ("Error: ").data ++ msg }, true)
    else if cmd = ("q").data then (e, false)
    else if cmd = ("wq").data then ((save w e).1, false)
    else ({ e with status_msg := ("Unknown: ").data ++ cmd }, true)
  ({ res.1 with mode := Mode.Normal, command_buffer := [] }, res.2)

/-- `EditorConfig::handle_keypress`: dispatch one input byte according to the
current mode; returns the updated state and the "continue running" signal.
`w` is the external write outcome threaded to `execute_command`. -/
def handle_keypress (w : Except (List Char) Unit) (key : Char) (e : EditorConfig) :
    EditorConfig × Bool :=
  match e.mode with
  | Mode.Normal =>
    if key = 'i' then ({ e with mode := Mode.Insert }, true)
    else if key = ':' then ({ e with mode := Mode.Command, command_buffer := [] }, true)
    else if key = 'h' ∨ key = 'j' ∨ key = 'k' ∨ key = 'l' then (move_cursor key e, true)
    else (e, true)
  | Mode.Insert =>
    if key = '\x1b' then ({ e with mode := Mode.Normal }, true)
    else if key = '\r' ∨ key = '\n' then
      let row := e.buffer.rows.getD e.cy []
      let remaining := row.drop e.cx
      ({ e with
          buffer := ⟨(e.buffer.rows.set e.cy (row.take e.cx)).insertIdx (e.cy + 1) remaining⟩,
          cy := e.cy + 1, cx := 0 }, true)
    else if key = '\x7f' ∨ key = '\x08' then (delete_char e, true)
    else if isControlChar key = false then (insert_char key e, true)
    else (e, true)
  | Mode.Command =>
    if key = '\x1b' then ({ e with mode := Mode.Normal }, true)
    else if key = '\r' ∨ key = '\n' then execute_command w e
    else if key = '\x7f' ∨ key = '\x08' then
      ({ e with command_buffer := e.command_buffer.dropLast }, true)
    else if isControlChar key = false then
      ({ e with command_buffer := e.command_buffer ++ [key] }, true)
    else (e, true)

/-- `EditorConfig::scroll`.  `screen_rows` is a `u16`, so `screen_rows - 1`
with `screen_rows = 0` underflows, a panic in debug builds — modelled as
`none`.  Otherwise the minimal-scroll recomputation of `row_offset`. -/
def scroll (e : EditorConfig) : Option EditorConfig :=
  if e.screen_rows = 0 then none
  else
    let visible_rows := e.screen_rows - 1
    let ro1 := if e.cy < e.row_offset then e.cy else e.row_offset
    let ro2 := if e.cy ≥ ro1 + visible_rows then e.cy - visible_rows + 1 else ro1
    some { e with row_offset := ro2 }

end EditorConfig

/-- The mode label used by `draw_status_bar` (`Command` hits the `_ => ""`
arm of the source's match). -/
def mode_str : Mode → List Char
  | Mode.Normal => ("-- NORMAL --").data
  | Mode.Insert => ("-- INSERT --").data
  | Mode.Command => ("").data

/-- The formatted status text of `draw_status_bar` in a non-Command mode:
mode label, cursor position, status message. -/
def status_text (e : EditorConfig) : List Char :=
  mode_str e.mode ++ (" | Pos: ").data ++ (Nat.repr e.cx).data ++ (",").data
    ++ (Nat.repr e.cy).data ++ (" | ").data ++ e.status_msg

/-- `draw_status_bar`, restricted to the text it emits (escape sequences are
output mechanics, out of scope).  In Command mode it prints the command buffer
behind a colon; otherwise it prints the status text padded with spaces to
`screen_cols` — the Rust width format specifier pads but never truncates. -/
def draw_status_bar (e : EditorConfig) : List Char :=
  if e.mode = Mode.Command then (":").data ++ e.command_buffer
  else status_text e ++ List.replicate (e.screen_cols - (status_text e).length) ' '

/-- Fold a sequence of movement keys through `move_cursor`. -/
def applyMoves (ms : List Char) (e : EditorConfig) : EditorConfig :=
  ms.foldl (fun s k => EditorConfig.move_cursor k s) e

/-- The cursor invariant: `cy` indexes a row and `cx` is at most the current
row's length (one past the last character is allowed). -/
abbrev cursorInv (e : EditorConfig) : Prop :=
  e.cy < e.buffer.rows.length ∧ e.cx ≤ (e.buffer.rows.getD e.cy []).length

/-- A concrete editor state used to instantiate theorems: two rows
`"ab"` and `"cd"`, cursor at the origin, Normal mode, no filename. -/
def stBase : EditorConfig :=
  { cx := 0, cy := 0, screen_cols := 80, screen_rows := 24, row_offset := 0,
    mode := Mode.Normal, buffer := ⟨[("ab").data, ("cd").data]⟩,
    command_buffer := [], status_msg := [], filename := none }

lemma Row.insert_char_cons_succ (n : Nat) (c a : Char) (t : List Char) :
    Row.insert_char (n + 1) c (a :: t) = a :: Row.insert_char n c t := by
  by_cases h : t.length ≤ n
  · simp [Row.insert_char, h]
  · simp [Row.insert_char, h]

lemma Row.delete_char_cons_succ (n : Nat) (a : Char) (t : List Char) :
    Row.delete_char (n + 1) (a :: t) = a :: Row.delete_char n t := by
  by_cases h : n < t.length
  · simp [Row.delete_char, h]
  · simp [Row.delete_char, h]

/-- C1: with no filename configured, executing the command `"w"` keeps the
session running, but the final status message is the hardcoded save
confirmation `"Saved to output.txt"`, not the `"No file name! ..."` report:
`save` installs the no-filename message and returns `Ok(())`, whereupon the
`Ok` arm of `execute_command` overwrites it with the confirmation. -/
theorem w_without_filename_reports_save_confirmation :
    (EditorConfig.execute_command (Except.ok ())
        { stBase with mode := Mode.Command, command_buffer := ("w").data }).2 = true ∧
    (EditorConfig.execute_command (Except.ok ())
        { stBase with mode := Mode.Command, command_buffer := ("w").data }).1.status_msg
      = ("Saved to output.txt").data ∧
    (EditorConfig.execute_command (Except.ok ())
        { stBase with mode := Mode.Command, command_buffer := ("w").data }).1.status_msg
      ≠ ("No file name! Use :w <filename> (TBD)").data :=
  ⟨rfl, rfl, by decide⟩

/-- C2 counterexample: inserting at a column strictly beyond the line length
and deleting at the same column is not the identity — `insert_char 1 'a' ""`
appends (yielding `"a"`) and `delete_char 1` is then an out-of-range no-op. -/
theorem insert_then_delete_not_id :
    Row.delete_char 1 (Row.insert_char 1 'a' []) ≠ [] := by decide

/-- C2 amended: for every line `s`, character `c`, and column `col ≤ length s`
(the range a valid cursor can occupy), inserting `c` at `col` and then deleting
at `col` restores `s` exactly. -/
theorem insert_then_delete_id (s : List Char) (col : Nat) (c : Char)
    (h : col ≤ s.length) :
    Row.delete_char col (Row.insert_char col c s) = s := by
  induction col generalizing s with
  | zero =>
    cases s with
    | nil => simp [Row.insert_char, Row.delete_char]
    | cons a t => simp [Row.insert_char, Row.delete_char]
  | succ n ih =>
    cases s with
    | nil => exact absurd h (by simp)
    | cons a t =>
      rw [Row.insert_char_cons_succ, Row.delete_char_cons_succ,
        ih t (by simpa using h)]

theorem insert_then_delete_id_witness :
    Row.delete_char 1 (Row.insert_char 1 'z' (("ab").data)) = ("ab").data :=
  insert_then_delete_id (("ab").data) 1 'z' (by decide)

/-- C3 counterexample: the source computes `visible_rows = screen_rows - 1`
with no `max(1, ·)` guard; at `screen_rows = 0` the `u16` subtraction
underflows (a panic in debug builds), so the recomputation is not total. -/
theorem scroll_underflows_at_zero_rows :
    EditorConfig.scroll { stBase with screen_rows := 0 } = none := rfl

/-- C3 amended: the scroll computation uses `bodyRows = screenRows - 1` with no
`max(1, ·)` guard; for every state whose `screenRows` is at least 1 it involves
no division, does not underflow, and produces a defined `rowOffset` (leaving
cursor, dimensions and buffer unchanged), while `screenRows = 0` underflows. -/
theorem scroll_total_of_pos (e : EditorConfig) (h : 1 ≤ e.screen_rows) :
    ∃ e2, EditorConfig.scroll e = some e2 ∧ e2.cx = e.cx ∧ e2.cy = e.cy ∧
      e2.screen_cols = e.screen_cols ∧ e2.screen_rows = e.screen_rows ∧
      e2.buffer = e.buffer := by
  unfold EditorConfig.scroll
  rw [if_neg (by omega)]
  exact ⟨_, rfl, rfl, rfl, rfl, rfl, rfl⟩

theorem scroll_total_of_pos_witness :
    ∃ e2, EditorConfig.scroll { stBase with screen_rows := 1 } = some e2 ∧
      e2.cx = stBase.cx ∧ e2.cy = stBase.cy ∧
      e2.screen_cols = stBase.screen_cols ∧ e2.screen_rows = 1 ∧
      e2.buffer = stBase.buffer :=
  scroll_total_of_pos { stBase with screen_rows := 1 } (by decide)

/-- C4 counterexample: feeding ESC to the keypress handler in Command mode
with a non-empty command buffer leaves the buffer non-empty — the source's
ESC arm only changes the mode and does not clear the buffer. -/
theorem esc_does_not_clear_command_buffer :
    ((EditorConfig.handle_keypress (Except.ok ()) '\x1b'
        { stBase with mode := Mode.Command, command_buffer := ("q").data }).1).command_buffer
      ≠ [] := by decide

/-- C4 amended: in Command mode, ESC transitions to Normal and returns the
continue signal, changing nothing else: the line store, cursor, status message
— and also the command buffer, which is left as it was (it is cleared on the
next entry to Command mode, not on cancellation). -/
theorem esc_in_command_mode (w : Except (List Char) Unit) (e : EditorConfig)
    (hm : e.mode = Mode.Command) :
    (EditorConfig.handle_keypress w '\x1b' e).2 = true ∧
    (EditorConfig.handle_keypress w '\x1b' e).1 = { e with mode := Mode.Normal } := by
  unfold EditorConfig.handle_keypress
  rw [hm]
  simp

theorem esc_in_command_mode_witness :
    (EditorConfig.handle_keypress (Except.ok ()) '\x1b'
        { stBase with mode := Mode.Command, command_buffer := ("q").data }).2 = true ∧
    (EditorConfig.handle_keypress (Except.ok ()) '\x1b'
        { stBase with mode := Mode.Command, command_buffer := ("q").data }).1 =
      { { stBase with mode := Mode.Command, command_buffer := ("q").data } with
          mode := Mode.Normal } :=
  esc_in_command_mode (Except.ok ())
    { stBase with mode := Mode.Command, command_buffer := ("q").data } rfl

lemma cursorInv_move_cursor (k : Char) (e : EditorConfig) (h : cursorInv e) :
    cursorInv (EditorConfig.move_cursor k e) := by
  obtain ⟨h1, h2⟩ := h
  unfold EditorConfig.move_cursor
  dsimp only
  split_ifs <;> refine ⟨?_, ?_⟩ <;> simp_all <;> omega

lemma cursorInv_applyMoves (ms : List Char) (e : EditorConfig) (h : cursorInv e) :
    cursorInv (applyMoves ms e) := by
  induction ms generalizing e with
  | nil => exact h
  | cons k t ih => exact ih _ (cursorInv_move_cursor k e h)

/-- C5: from any state satisfying the cursor invariant, any sequence of
`h`/`j`/`k`/`l` moves keeps the invariant after every individual move (every
split of the sequence into an executed part and a rest), and in particular
after any vertical move `cx` is at most the destination row's length — the
unconditional clamp at the end of `move_cursor` enforces it. -/
theorem hjkl_preserves_cursor_invariant (e : EditorConfig) (ms pre suff : List Char)
    (hInv : cursorInv e)
    (hkeys : ∀ k ∈ ms, k = 'h' ∨ k = 'j' ∨ k = 'k' ∨ k = 'l')
    (hsplit : ms = pre ++ suff) :
    cursorInv (applyMoves pre e) ∧
      (applyMoves pre e).cx ≤
        ((applyMoves pre e).buffer.rows.getD (applyMoves pre e).cy []).length :=
  ⟨cursorInv_applyMoves pre e hInv, (cursorInv_applyMoves pre e hInv).2⟩

theorem hjkl_preserves_cursor_invariant_witness :
    cursorInv (applyMoves ['j'] stBase) ∧
      (applyMoves ['j'] stBase).cx ≤
        ((applyMoves ['j'] stBase).buffer.rows.getD (applyMoves ['j'] stBase).cy []).length :=
  hjkl_preserves_cursor_invariant stBase ['j', 'l'] ['j'] ['l']
    (by decide) (by decide) rfl

/-- C6: with `screenRows ≥ 2` and the cursor on a real row, the scroll
recomputation succeeds and establishes the viewport invariant
`rowOffset ≤ cy ≤ rowOffset + (screenRows-1) - 1`; and it is minimal — when the
invariant already held, `rowOffset` is returned unchanged. -/
theorem scroll_viewport_invariant (e : EditorConfig) (h2 : 2 ≤ e.screen_rows)
    (hcy : e.cy < e.buffer.rows.length) :
    ∃ e2, EditorConfig.scroll e = some e2 ∧
      e2.row_offset ≤ e.cy ∧
      e.cy ≤ e2.row_offset + (e.screen_rows - 1) - 1 ∧
      (e.row_offset ≤ e.cy → e.cy ≤ e.row_offset + (e.screen_rows - 1) - 1 →
        e2.row_offset = e.row_offset) := by
  unfold EditorConfig.scroll
  rw [if_neg (by omega)]
  dsimp only
  refine ⟨_, rfl, ?_, ?_, ?_⟩ <;> dsimp only <;> split_ifs <;> omega

theorem scroll_viewport_invariant_witness :
    ∃ e2, EditorConfig.scroll stBase = some e2 ∧
      e2.row_offset ≤ stBase.cy ∧
      stBase.cy ≤ e2.row_offset + (stBase.screen_rows - 1) - 1 ∧
      (stBase.row_offset ≤ stBase.cy →
        stBase.cy ≤ stBase.row_offset + (stBase.screen_rows - 1) - 1 →
        e2.row_offset = stBase.row_offset) :=
  scroll_viewport_invariant stBase (by decide) (by decide)

lemma move_cursor_frame (k : Char) (e : EditorConfig) :
    (EditorConfig.move_cursor k e).buffer = e.buffer ∧
    (EditorConfig.move_cursor k e).status_msg = e.status_msg ∧
    (EditorConfig.move_cursor k e).row_offset = e.row_offset ∧
    (EditorConfig.move_cursor k e).screen_cols = e.screen_cols ∧
    (EditorConfig.move_cursor k e).screen_rows = e.screen_rows ∧
    (EditorConfig.move_cursor k e).filename = e.filename := by
  unfold EditorConfig.move_cursor
  dsimp only
  split_ifs <;> simp

/-- C10: in Normal mode, every input byte leaves the line store untouched
(same row list, hence same row count and contents), leaves the status message,
scroll offset, screen dimensions and filename unchanged, and returns the
continue signal `true`; only mode, cursor and command buffer may change. -/
theorem normal_mode_never_mutates_buffer (w : Except (List Char) Unit) (key : Char)
    (e : EditorConfig) (hm : e.mode = Mode.Normal) :
    (EditorConfig.handle_keypress w key e).2 = true ∧
    (EditorConfig.handle_keypress w key e).1.buffer = e.buffer ∧
    (EditorConfig.handle_keypress w key e).1.status_msg = e.status_msg ∧
    (EditorConfig.handle_keypress w key e).1.row_offset = e.row_offset ∧
    (EditorConfig.handle_keypress w key e).1.screen_cols = e.screen_cols ∧
    (EditorConfig.handle_keypress w key e).1.screen_rows = e.screen_rows ∧
    (EditorConfig.handle_keypress w key e).1.filename = e.filename := by
  simp only [EditorConfig.handle_keypress, hm]
  split_ifs
  · exact ⟨rfl, rfl, rfl, rfl, rfl, rfl, rfl⟩
  · exact ⟨rfl, rfl, rfl, rfl, rfl, rfl, rfl⟩
  · obtain ⟨hb, hs, hro, hsc, hsr, hf⟩ := move_cursor_frame key e
    exact ⟨rfl, hb, hs, hro, hsc, hsr, hf⟩
  · exact ⟨rfl, rfl, rfl, rfl, rfl, rfl, rfl⟩

theorem normal_mode_never_mutates_buffer_witness :
    (EditorConfig.handle_keypress (Except.ok ()) 'x' stBase).2 = true ∧
    (EditorConfig.handle_keypress (Except.ok ()) 'x' stBase).1.buffer = stBase.buffer ∧
    (EditorConfig.handle_keypress (Except.ok ()) 'x' stBase).1.status_msg = stBase.status_msg ∧
    (EditorConfig.handle_keypress (Except.ok ()) 'x' stBase).1.row_offset = stBase.row_offset ∧
    (EditorConfig.handle_keypress (Except.ok ()) 'x' stBase).1.screen_cols = stBase.screen_cols ∧
    (EditorConfig.handle_keypress (Except.ok ()) 'x' stBase).1.screen_rows = stBase.screen_rows ∧
    (EditorConfig.handle_keypress (Except.ok ()) 'x' stBase).1.filename = stBase.filename :=
  normal_mode_never_mutates_buffer (Except.ok ()) 'x' stBase rfl

lemma getD_eraseIdx_lt (l : List (List Char)) (i j : Nat) (hij : j < i) :
    (l.eraseIdx i).getD j [] = l.getD j [] := by
  induction l generalizing i j with
  | nil => rfl
  | cons a t ih =>
    cases i with
    | zero => exact absurd hij (Nat.not_lt_zero j)
    | succ i1 =>
      cases j with
      | zero => rfl
      | succ j1 => simpa using ih i1 j1 (Nat.lt_of_succ_lt_succ hij)

lemma eraseIdx_set_pred (l : List (List Char)) (i : Nat) (v : List Char)
    (h0 : 0 < i) (h : i < l.length) :
    (l.eraseIdx i).set (i - 1) v = l.take (i - 1) ++ v :: l.drop (i + 1) := by
  induction l generalizing i with
  | nil => exact absurd h (by simp)
  | cons a t ih =>
    cases i with
    | zero => exact absurd h0 (by simp)
    | succ i1 =>
      cases i1 with
      | zero =>
        cases t with
        | nil => exact absurd h (by simp)
        | cons b u => rfl
      | succ j =>
        have hj : j + 1 < t.length := by simpa using h
        simpa using ih (j + 1) (Nat.succ_pos j) hj

lemma set_getD_self (l : List (List Char)) (i : Nat) (h : i < l.length) :
    l.set i (l.getD i []) = l := by
  induction l generalizing i with
  | nil => rfl
  | cons a t ih =>
    cases i with
    | zero => rfl
    | succ j => simpa using ih j (by simpa using h)

lemma getD_set_self (l : List (List Char)) (i : Nat) (v : List Char)
    (h : i < l.length) : (l.set i v).getD i [] = v := by
  induction l generalizing i with
  | nil => exact absurd h (by simp)
  | cons a t ih =>
    cases i with
    | zero => rfl
    | succ j => simpa using ih j (by simpa using h)

lemma getD_insertIdx_self (l : List (List Char)) (n : Nat) (a : List Char)
    (h : n ≤ l.length) : (l.insertIdx n a).getD n [] = a := by
  induction l generalizing n with
  | nil =>
    have hn : n = 0 := Nat.le_zero.mp (by simpa using h)
    subst hn; rfl
  | cons b t ih =>
    cases n with
    | zero => rfl
    | succ j => simpa [List.insertIdx_succ_cons] using ih j (by simpa using h)

/-- C7: Insert-mode backspace with `cx = 0`.  At `cy = 0` a no-op; at `cy > 0`
it removes row `cy`, appends its full content to the end of row `cy - 1`, and
places the cursor on row `cy - 1` at the column where the join happened (the
previous row's length before the append). -/
theorem backspace_joins_lines (e : EditorConfig) (hcx : e.cx = 0)
    (hcy : e.cy < e.buffer.rows.length) :
    (e.cy = 0 → EditorConfig.delete_char e = e) ∧
    (0 < e.cy →
      EditorConfig.delete_char e =
        { e with
          buffer := ⟨e.buffer.rows.take (e.cy - 1) ++
            (e.buffer.rows.getD (e.cy - 1) [] ++ e.buffer.rows.getD e.cy []) ::
            e.buffer.rows.drop (e.cy + 1)⟩,
          cy := e.cy - 1,
          cx := (e.buffer.rows.getD (e.cy - 1) []).length }) := by
  constructor
  · intro h0
    unfold EditorConfig.delete_char
    rw [if_pos ⟨hcx, h0⟩]
  · intro h0
    unfold EditorConfig.delete_char
    rw [if_neg (by omega), if_neg (by omega)]
    dsimp only
    rw [getD_eraseIdx_lt _ _ _ (by omega), eraseIdx_set_pred _ _ _ h0 hcy]

theorem backspace_joins_lines_witness :
    EditorConfig.delete_char { stBase with cy := 1 } =
      { stBase with buffer := ⟨[("abcd").data]⟩, cy := 0, cx := 2 } := by
  have h := backspace_joins_lines { stBase with cy := 1 } rfl (by decide)
  rw [h.2 (by decide)]
  decide

/-- C8: splitting the current line at the cursor column (Insert-mode Enter)
produces two adjacent rows and raises the line count by one; an immediately
following Insert-mode backspace (line join at column 0) restores the whole
editor state exactly — original single line content and original line count —
and both keypresses return the continue signal. -/
theorem split_then_join_id (w : Except (List Char) Unit) (e : EditorConfig)
    (hm : e.mode = Mode.Insert) (hcy : e.cy < e.buffer.rows.length)
    (hcx : e.cx ≤ (e.buffer.rows.getD e.cy []).length) :
    ((EditorConfig.handle_keypress w '\x0d' e).1).buffer.rows.length =
      e.buffer.rows.length + 1 ∧
    (EditorConfig.handle_keypress w '\x7f'
        (EditorConfig.handle_keypress w '\x0d' e).1).1 = e ∧
    (EditorConfig.handle_keypress w '\x0d' e).2 = true ∧
    (EditorConfig.handle_keypress w '\x7f'
        (EditorConfig.handle_keypress w '\x0d' e).1).2 = true := by
  obtain ⟨ecx, ecy, escols, esrows, ero, emode, ⟨erows⟩, ecb, esm, efn⟩ := e
  dsimp only at hm hcy hcx
  subst hm
  have hlen : ecy + 1 ≤ (erows.set ecy ((erows.getD ecy []).take ecx)).length := by
    simpa using hcy
  have hsplit : EditorConfig.handle_keypress w '\x0d'
      ⟨ecx, ecy, escols, esrows, ero, Mode.Insert, ⟨erows⟩, ecb, esm, efn⟩ =
      (⟨0, ecy + 1, escols, esrows, ero, Mode.Insert,
        ⟨(erows.set ecy ((erows.getD ecy []).take ecx)).insertIdx (ecy + 1)
          ((erows.getD ecy []).drop ecx)⟩, ecb, esm, efn⟩, true) := rfl
  rw [hsplit]
  refine ⟨?_, ?_, rfl, rfl⟩
  · rw [List.length_insertIdx _ _ hlen]
    simp
  · show EditorConfig.delete_char
      ⟨0, ecy + 1, escols, esrows, ero, Mode.Insert,
        ⟨(erows.set ecy ((erows.getD ecy []).take ecx)).insertIdx (ecy + 1)
          ((erows.getD ecy []).drop ecx)⟩, ecb, esm, efn⟩ =
      ⟨ecx, ecy, escols, esrows, ero, Mode.Insert, ⟨erows⟩, ecb, esm, efn⟩
    unfold EditorConfig.delete_char
    rw [if_neg (by simp), if_neg (by simp)]
    dsimp only
    rw [List.eraseIdx_insertIdx, getD_insertIdx_self _ _ _ hlen,
      Nat.add_sub_cancel, getD_set_self _ _ _ hcy,
      List.set_set, List.length_take,
      Nat.min_eq_left hcx, List.take_append_drop,
      set_getD_self _ _ hcy]

theorem split_then_join_id_witness :
    ((EditorConfig.handle_keypress (Except.ok ()) '\x0d'
        { stBase with mode := Mode.Insert, cx := 1 }).1).buffer.rows.length =
      ({ stBase with mode := Mode.Insert, cx := 1 } :
        EditorConfig).buffer.rows.length + 1 ∧
    (EditorConfig.handle_keypress (Except.ok ()) '\x7f'
        (EditorConfig.handle_keypress (Except.ok ()) '\x0d'
          { stBase with mode := Mode.Insert, cx := 1 }).1).1 =
      { stBase with mode := Mode.Insert, cx := 1 } ∧
    (EditorConfig.handle_keypress (Except.ok ()) '\x0d'
        { stBase with mode := Mode.Insert, cx := 1 }).2 = true ∧
    (EditorConfig.handle_keypress (Except.ok ()) '\x7f'
        (EditorConfig.handle_keypress (Except.ok ()) '\x0d'
          { stBase with mode := Mode.Insert, cx := 1 }).1).2 = true :=
  split_then_join_id (Except.ok ()) { stBase with mode := Mode.Insert, cx := 1 }
    rfl (by decide) (by decide)

/-- C9 counterexample: in Normal mode with `screen_cols = 1` the rendered
status line is the full 26-character formatted text, not exactly 1 character —
the Rust width format specifier pads a short string but never truncates a
long one. -/
theorem status_bar_not_screen_width :
    (draw_status_bar { stBase with screen_cols := 1 }).length ≠
      ({ stBase with screen_cols := 1 } : EditorConfig).screen_cols := by decide

/-- C9 amended: in a non-Command mode the status line is the formatted text
(mode label, numeric cursor position, status message) left-justified and
padded with spaces up to `screen_cols` when shorter, but emitted in full when
longer — no truncation — so its length is
`max screen_cols (length of the formatted text)`. -/
theorem status_bar_padded_not_truncated (e : EditorConfig)
    (hm : e.mode ≠ Mode.Command) :
    draw_status_bar e = status_text e ++
        List.replicate (e.screen_cols - (status_text e).length) ' ' ∧
    (draw_status_bar e).length = max e.screen_cols (status_text e).length := by
  unfold draw_status_bar
  rw [if_neg hm]
  refine ⟨rfl, ?_⟩
  simp only [List.length_append, List.length_replicate]
  omega

theorem status_bar_padded_not_truncated_witness :
    draw_status_bar stBase = status_text stBase ++
        List.replicate (stBase.screen_cols - (status_text stBase).length) ' ' ∧
    (draw_status_bar stBase).length = max stBase.screen_cols (status_text stBase).length :=
  status_bar_padded_not_truncated stBase (by decide)

end Vii
